import Mathlib

/-!
Shallow embedding of the `home-alog` inventory graph layer
(`src/home_alog/database/operations.py`, `connection.py`, `server/mcp_server.py`).

The persistent graph store (Neo4j) is modelled as an explicit state: lists of
nodes per kind and lists of directed edges keyed by the endpoint `name`s
(names are unique per kind once `initialize_constraints` has installed the
uniqueness constraints, which is the setting of every claim).  Each Python
operation issues exactly one Cypher query; the Lean definition of the
operation is the semantics of that query over the state, followed by the
same row reshaping the Python code performs.  Monetary values are modelled
as exact rationals: the code only passes them through and never computes
with them.
-/

namespace HomeAlog

/-- Properties of an `Item` node, as stored by `create_item`
(`operations.py:39-49`): every field is submitted explicitly, optional ones
as `null` (`none`). -/
structure Item where
  name : String
  description : String
  purchase_date : Option String
  value : Option Rat
  quantity : Int
  notes : String
deriving DecidableEq, Repr

/-- Properties of a `Location` node (`create_location`, `operations.py:71-77`). -/
structure Location where
  name : String
  type : String
  description : String
deriving DecidableEq, Repr

/-- Properties of a `Category` node (`create_category`, `operations.py:96-101`). -/
structure Category where
  name : String
  description : String
deriving DecidableEq, Repr

/-- Properties of a `Person` node (`create_person`, `operations.py:118-120`). -/
structure Person where
  name : String
deriving DecidableEq, Repr

/-- The persistent graph store: nodes per kind, and the three directed
relationship kinds as lists of `(source name, target name)` pairs. -/
structure GraphState where
  items : List Item
  locations : List Location
  categories : List Category
  persons : List Person
  located_in : List (String × String)
  belongs_to : List (String × String)
  owned_by : List (String × String)
deriving DecidableEq, Repr

def GraphState.empty : GraphState := ⟨[], [], [], [], [], [], []⟩

/-- Errors surfaced by the store through `execute_query`, which
`GraphOperations` propagates unchanged (no `try`/`except` in
`operations.py`). -/
inductive DbError where
  | constraintViolation
deriving DecidableEq, Repr

/-- Well-formedness of a store state reachable under the uniqueness
constraints: node names are unique per kind, no duplicate edges, and every
edge endpoint names an existing node (Neo4j relationships always connect
existing nodes, and no operation deletes a node). -/
def WF (s : GraphState) : Prop :=
  (s.items.map Item.name).Nodup ∧
  (s.locations.map Location.name).Nodup ∧
  (s.categories.map Category.name).Nodup ∧
  (s.persons.map Person.name).Nodup ∧
  s.located_in.Nodup ∧ s.belongs_to.Nodup ∧ s.owned_by.Nodup ∧
  (∀ e ∈ s.located_in,
    (∃ i ∈ s.items, i.name = e.1) ∧ (∃ l ∈ s.locations, l.name = e.2)) ∧
  (∀ e ∈ s.belongs_to,
    (∃ i ∈ s.items, i.name = e.1) ∧ (∃ c ∈ s.categories, c.name = e.2)) ∧
  (∀ e ∈ s.owned_by,
    (∃ i ∈ s.items, i.name = e.1) ∧ (∃ p ∈ s.persons, p.name = e.2))

instance (s : GraphState) : Decidable (WF s) := by
  unfold WF; infer_instance

/-- `GraphOperations.create_item` (`operations.py:17-58`): one
`CREATE (i:Item {...}) RETURN i` query.  Under the uniqueness constraint on
`Item.name` the store rejects a duplicate name with a constraint violation
and stores nothing; otherwise the node is stored and returned. -/
def create_item (s : GraphState) (name : String) (description : String := "")
    (purchase_date : Option String := none) (value : Option Rat := none)
    (quantity : Int := 1) (notes : String := "") :
    Except DbError Item × GraphState :=
  if s.items.any (fun i => i.name = name) then
    (.error .constraintViolation, s)
  else
    let i : Item := ⟨name, description, purchase_date, value, quantity, notes⟩
    (.ok i, { s with items := s.items ++ [i] })

/-- `GraphOperations.create_location` (`operations.py:60-84`). -/
def create_location (s : GraphState) (name : String)
    (location_type : String := "room") (description : String := "") :
    Except DbError Location × GraphState :=
  if s.locations.any (fun l => l.name = name) then
    (.error .constraintViolation, s)
  else
    let l : Location := ⟨name, location_type, description⟩
    (.ok l, { s with locations := s.locations ++ [l] })

/-- `GraphOperations.create_category` (`operations.py:86-107`). -/
def create_category (s : GraphState) (name : String) (description : String := "") :
    Except DbError Category × GraphState :=
  if s.categories.any (fun c => c.name = name) then
    (.error .constraintViolation, s)
  else
    let c : Category := ⟨name, description⟩
    (.ok c, { s with categories := s.categories ++ [c] })

/-- `GraphOperations.create_person` (`operations.py:109-123`). -/
def create_person (s : GraphState) (name : String) :
    Except DbError Person × GraphState :=
  if s.persons.any (fun p => p.name = name) then
    (.error .constraintViolation, s)
  else
    let p : Person := ⟨name⟩
    (.ok p, { s with persons := s.persons ++ [p] })

/-- `GraphOperations.link_item_to_location` (`operations.py:127-147`):
`MATCH` item, `MATCH` location, `MERGE` the `LOCATED_IN` edge, `RETURN i, l`;
the Python returns `len(result) > 0`, i.e. true iff both `MATCH`es found a
node.  `MERGE` creates the edge only if it is absent. -/
def link_item_to_location (s : GraphState) (item_name location_name : String) :
    Bool × GraphState :=
  if s.items.any (fun i => i.name = item_name) &&
      s.locations.any (fun l => l.name = location_name) then
    if (item_name, location_name) ∈ s.located_in then (true, s)
    else (true, { s with located_in := s.located_in ++ [(item_name, location_name)] })
  else (false, s)

/-- `GraphOperations.link_item_to_category` (`operations.py:149-169`). -/
def link_item_to_category (s : GraphState) (item_name category_name : String) :
    Bool × GraphState :=
  if s.items.any (fun i => i.name = item_name) &&
      s.categories.any (fun c => c.name = category_name) then
    if (item_name, category_name) ∈ s.belongs_to then (true, s)
    else (true, { s with belongs_to := s.belongs_to ++ [(item_name, category_name)] })
  else (false, s)

/-- `GraphOperations.link_item_to_owner` (`operations.py:171-191`). -/
def link_item_to_owner (s : GraphState) (item_name person_name : String) :
    Bool × GraphState :=
  if s.items.any (fun i => i.name = item_name) &&
      s.persons.any (fun p => p.name = person_name) then
    if (item_name, person_name) ∈ s.owned_by then (true, s)
    else (true, { s with owned_by := s.owned_by ++ [(item_name, person_name)] })
  else (false, s)

/-- `GraphOperations.find_items_in_location` (`operations.py:195-209`):
`MATCH (i:Item)-[:LOCATED_IN]->(l:Location {name: $location_name}) RETURN i`.
A path requires the target `Location` node to exist. -/
def find_items_in_location (s : GraphState) (location_name : String) : List Item :=
  if s.locations.any (fun l => l.name = location_name) then
    s.items.filter (fun i => (i.name, location_name) ∈ s.located_in)
  else []

/-- `GraphOperations.find_items_by_category` (`operations.py:211-225`). -/
def find_items_by_category (s : GraphState) (category_name : String) : List Item :=
  if s.categories.any (fun c => c.name = category_name) then
    s.items.filter (fun i => (i.name, category_name) ∈ s.belongs_to)
  else []

/-- The `l.name` column values produced by
`OPTIONAL MATCH (i)-[:LOCATED_IN]->(l:Location)` for the item named
`item_name`: one per `LOCATED_IN` edge whose target is an existing
`Location` node. -/
def locatedNames (s : GraphState) (item_name : String) : List String :=
  (s.located_in.filter
    (fun e => e.1 = item_name && s.locations.any (fun l => l.name = e.2))).map (·.2)

/-- Analogue of `locatedNames` for `OPTIONAL MATCH (i)-[:BELONGS_TO]->(c:Category)`. -/
def categoryNames (s : GraphState) (item_name : String) : List String :=
  (s.belongs_to.filter
    (fun e => e.1 = item_name && s.categories.any (fun c => c.name = e.2))).map (·.2)

/-- Analogue of `locatedNames` for `OPTIONAL MATCH (i)-[:OWNED_BY]->(p:Person)`. -/
def ownerNames (s : GraphState) (item_name : String) : List String :=
  (s.owned_by.filter
    (fun e => e.1 = item_name && s.persons.any (fun p => p.name = e.2))).map (·.2)

/-- Row expansion of an `OPTIONAL MATCH`: each match contributes a row;
no match contributes a single row with `null`. -/
def optRows (xs : List String) : List (Option String) :=
  match xs with
  | [] => [none]
  | _ => xs.map some

/-- The rows returned by the `get_item_details` query
(`operations.py:236-242`): the mandatory `MATCH` on the item, then the
cross product of the three `OPTIONAL MATCH` expansions. -/
def item_detail_rows (s : GraphState) (item_name : String) :
    List (Item × Option String × Option String × Option String) :=
  match s.items.find? (fun i => i.name = item_name) with
  | none => []
  | some i =>
    (optRows (locatedNames s item_name)).flatMap (fun l =>
      (optRows (categoryNames s item_name)).flatMap (fun c =>
        (optRows (ownerNames s item_name)).map (fun p => (i, l, c, p))))

/-- The dictionary `get_item_details` assembles from the first result row:
the item's own properties plus the `location`, `category` and `owner`
columns of that row. -/
structure ItemDetails where
  item : Item
  location : Option String
  category : Option String
  owner : Option String
deriving DecidableEq, Repr

/-- `GraphOperations.get_item_details` (`operations.py:227-252`):
`if not result: return None`, otherwise build the details from
`result[0]` only. -/
def get_item_details (s : GraphState) (item_name : String) : Option ItemDetails :=
  match item_detail_rows s item_name with
  | [] => none
  | r :: _ => some ⟨r.1, r.2.1, r.2.2.1, r.2.2.2⟩

/-- `GraphOperations.list_all_locations` (`operations.py:254-258`):
`MATCH (l:Location) RETURN l ORDER BY l.name`. -/
def list_all_locations (s : GraphState) : List Location :=
  List.insertionSort (fun a b => a.name ≤ b.name) s.locations

/-- `GraphOperations.list_all_categories` (`operations.py:260-264`). -/
def list_all_categories (s : GraphState) : List Category :=
  List.insertionSort (fun a b => a.name ≤ b.name) s.categories

/-!
Constraint initialization (`connection.py:69-84`).  `initialize_constraints`
runs four `CREATE CONSTRAINT ... IF NOT EXISTS` statements; each `session.run`
is wrapped in `try: ... except Exception as e: print(f"Note: {e}")`, so every
store error raised while executing a statement is converted into a printed
note and the loop continues.  The store is modelled as an oracle mapping each
statement to its outcome; the embedding returns the printed notes together
with the propagated error, if any.
-/

/-- Errors the store can raise while running a constraint statement. -/
inductive Neo4jError where
  | constraintAlreadyExists
  | serviceUnavailable
  | authError
  | other : String → Neo4jError
deriving DecidableEq, Repr

/-- `str(e)` for the modelled store errors. -/
def Neo4jError.text : Neo4jError → String
  | .constraintAlreadyExists => "An equivalent constraint already exists"
  | .serviceUnavailable => "Unable to retrieve routing information"
  | .authError => "The client is unauthorized due to authentication failure"
  | .other s => s

/-- The four constraint statements of `connection.py:71-76`. -/
def constraint_statements : List String :=
  ["CREATE CONSTRAINT item_name IF NOT EXISTS FOR (i:Item) REQUIRE i.name IS UNIQUE",
   "CREATE CONSTRAINT location_name IF NOT EXISTS FOR (l:Location) REQUIRE l.name IS UNIQUE",
   "CREATE CONSTRAINT category_name IF NOT EXISTS FOR (c:Category) REQUIRE c.name IS UNIQUE",
   "CREATE CONSTRAINT person_name IF NOT EXISTS FOR (p:Person) REQUIRE p.name IS UNIQUE"]

/-- `Neo4jConnection.initialize_constraints` (`connection.py:69-84`), with
the store's behaviour given by `run`.  The result is `.ok notes` when the
function returns normally (with `notes` the `print`ed lines) and `.error e`
when an exception `e` escapes to the caller.  The body mirrors the Python
loop: the `match` on `run c` is the `try`/`except Exception` block, whose
error branch appends `Note: {e}` and keeps going. -/
def initialize_constraints (run : String → Except Neo4jError Unit) :
    Except Neo4jError (List String) :=
  constraint_statements.foldlM
    (fun notes c =>
      match run c with
      | .ok _ => pure notes
      | .error e => pure (notes ++ ["Note: " ++ e.text]))
    ([] : List String)

/-!
Tool-invocation front end (`mcp_server.py:158-207`).  `call_tool` invokes
`graph.create_item(**arguments)` etc.; Python binds the keyword arguments
against the operation's signature before the body runs, so a call with the
required `name` key missing (or with an unknown key) raises a `TypeError`
at the call site — the operation body, and hence the store, is never
reached — and `call_tool`'s blanket `except Exception` turns it into an
`Error: ...` text reply.  Keyword binding checks key presence only (Python
does not type-check kwargs); the typed extraction below therefore falls
back to the parameter's default on a constructor mismatch, which no claim
exercises.
-/

/-- A JSON-ish Python value arriving through the tool arguments. -/
inductive PyVal where
  | str : String → PyVal
  | num : Rat → PyVal
  | int : Int → PyVal
  | null : PyVal
deriving DecidableEq, Repr

/-- Keyword lookup in the `arguments` dict. -/
def getArg (args : List (String × PyVal)) (key : String) : Option PyVal :=
  (args.find? (fun a => a.1 = key)).map (·.2)

def argStr (args : List (String × PyVal)) (key : String) (dflt : String) : String :=
  match getArg args key with
  | some (.str v) => v
  | _ => dflt

def argOptStr (args : List (String × PyVal)) (key : String) : Option String :=
  match getArg args key with
  | some (.str v) => some v
  | _ => none

def argOptNum (args : List (String × PyVal)) (key : String) : Option Rat :=
  match getArg args key with
  | some (.num v) => some v
  | some (.int v) => some (v : Rat)
  | _ => none

def argInt (args : List (String × PyVal)) (key : String) (dflt : Int) : Int :=
  match getArg args key with
  | some (.int v) => v
  | _ => dflt

/-- Python's binding of `**arguments` against a signature: it succeeds iff
every required parameter is present and every key names a declared
parameter; otherwise the call raises `TypeError` before the body runs. -/
def kwargsBind (args : List (String × PyVal))
    (required optional : List String) : Bool :=
  required.all (fun k => (getArg args k).isSome) &&
    args.all (fun a => a.1 ∈ required ∨ a.1 ∈ optional)

/-- What a `call_tool` branch reports back: a success text or an
`Error: ...` text produced by the blanket `except Exception` handler. -/
inductive ToolReply where
  | ok : String → ToolReply
  | errorText : String → ToolReply
deriving DecidableEq, Repr

/-- The `create_item` branch of `call_tool` (`mcp_server.py:162-164`):
`graph.create_item(**arguments)`.  When kwarg binding fails, a `TypeError`
is raised before `create_item` runs, so no store request is issued and the
state is untouched. -/
def call_tool_create_item (s : GraphState) (args : List (String × PyVal)) :
    ToolReply × GraphState :=
  if kwargsBind args ["name"]
      ["description", "purchase_date", "value", "quantity", "notes"] then
    match create_item s (argStr args "name" "") (argStr args "description" "")
        (argOptStr args "purchase_date") (argOptNum args "value")
        (argInt args "quantity" 1) (argStr args "notes" "") with
    | (.ok _, s') => (.ok "Created item", s')
    | (.error _, s') => (.errorText "Error: constraint violation", s')
  else
    (.errorText "Error: TypeError", s)

/-- The `create_location` branch of `call_tool` (`mcp_server.py:166-168`). -/
def call_tool_create_location (s : GraphState) (args : List (String × PyVal)) :
    ToolReply × GraphState :=
  if kwargsBind args ["name"] ["location_type", "description"] then
    match create_location s (argStr args "name" "")
        (argStr args "location_type" "room") (argStr args "description" "") with
    | (.ok _, s') => (.ok "Created location", s')
    | (.error _, s') => (.errorText "Error: constraint violation", s')
  else
    (.errorText "Error: TypeError", s)

/-- The `create_category` branch of `call_tool` (`mcp_server.py:170-172`). -/
def call_tool_create_category (s : GraphState) (args : List (String × PyVal)) :
    ToolReply × GraphState :=
  if kwargsBind args ["name"] ["description"] then
    match create_category s (argStr args "name" "")
        (argStr args "description" "") with
    | (.ok _, s') => (.ok "Created category", s')
    | (.error _, s') => (.errorText "Error: constraint violation", s')
  else
    (.errorText "Error: TypeError", s)

/-! ## Supporting lemmas -/

lemma any_name_iff {α : Type} (l : List α) (f : α → String) (n : String) :
    (l.any fun x => f x = n) = true ↔ ∃ x ∈ l, f x = n := by
  simp [List.any_eq_true]

lemma length_filter_eq_one_of_nodup_map {α β : Type} [DecidableEq β]
    (l : List α) (f : α → β) (b : β)
    (hnd : (l.map f).Nodup) (hmem : ∃ x ∈ l, f x = b) :
    (l.filter (fun x => f x = b)).length = 1 := by
  induction l with
  | nil => simp at hmem
  | cons y l ih =>
    simp only [List.map_cons, List.nodup_cons] at hnd
    obtain ⟨hy, hnd'⟩ := hnd
    by_cases hyb : f y = b
    · have hnone : l.filter (fun x => f x = b) = [] := by
        rw [List.filter_eq_nil_iff]
        intro x hx
        simp only [decide_eq_true_eq]
        intro hfx
        exact hy (by rw [hyb, ← hfx]; exact List.mem_map_of_mem f hx)
      simp [List.filter_cons, hyb, hnone]
    · obtain ⟨x, hx, hfx⟩ := hmem
      rcases hx with _ | hx'
      · exact absurd hfx hyb
      · simp only [List.filter_cons, decide_eq_true_eq, hyb, if_false]
        exact ih hnd' ⟨x, by assumption, hfx⟩

lemma length_filter_eq_one_of_nodup {α : Type} [DecidableEq α] (l : List α) (a : α)
    (hnd : l.Nodup) (ha : a ∈ l) : (l.filter (fun x => x = a)).length = 1 := by
  have h := length_filter_eq_one_of_nodup_map l id a (by simpa using hnd) ⟨a, ha, rfl⟩
  simpa using h

lemma filter_eq_nil_of_not_mem {α : Type} [DecidableEq α] (l : List α) (a : α)
    (ha : a ∉ l) : l.filter (fun x => x = a) = [] := by
  rw [List.filter_eq_nil_iff]
  intro e he
  simp only [decide_eq_true_eq]
  intro heq
  exact ha (heq ▸ he)

lemma link_loc_pos (s : GraphState) (iN tN : String)
    (hi : ∃ i ∈ s.items, i.name = iN) (hl : ∃ l ∈ s.locations, l.name = tN) :
    link_item_to_location s iN tN =
      (true, if (iN, tN) ∈ s.located_in then s
        else { s with located_in := s.located_in ++ [(iN, tN)] }) := by
  have h1 := (any_name_iff s.items Item.name iN).mpr hi
  have h2 := (any_name_iff s.locations Location.name tN).mpr hl
  by_cases hm : (iN, tN) ∈ s.located_in <;>
    simp [link_item_to_location, h1, h2, hm]

lemma link_loc_neg (s : GraphState) (iN tN : String)
    (h : ¬((∃ i ∈ s.items, i.name = iN) ∧ (∃ l ∈ s.locations, l.name = tN))) :
    link_item_to_location s iN tN = (false, s) := by
  cases hb : ((s.items.any fun i => i.name = iN) &&
      (s.locations.any fun l => l.name = tN)) with
  | false => simp [link_item_to_location, hb]
  | true =>
    rw [Bool.and_eq_true] at hb
    exact absurd ⟨(any_name_iff s.items Item.name iN).mp hb.1,
      (any_name_iff s.locations Location.name tN).mp hb.2⟩ h

lemma link_cat_pos (s : GraphState) (iN tN : String)
    (hi : ∃ i ∈ s.items, i.name = iN) (hc : ∃ c ∈ s.categories, c.name = tN) :
    link_item_to_category s iN tN =
      (true, if (iN, tN) ∈ s.belongs_to then s
        else { s with belongs_to := s.belongs_to ++ [(iN, tN)] }) := by
  have h1 := (any_name_iff s.items Item.name iN).mpr hi
  have h2 := (any_name_iff s.categories Category.name tN).mpr hc
  by_cases hm : (iN, tN) ∈ s.belongs_to <;>
    simp [link_item_to_category, h1, h2, hm]

lemma link_cat_neg (s : GraphState) (iN tN : String)
    (h : ¬((∃ i ∈ s.items, i.name = iN) ∧ (∃ c ∈ s.categories, c.name = tN))) :
    link_item_to_category s iN tN = (false, s) := by
  cases hb : ((s.items.any fun i => i.name = iN) &&
      (s.categories.any fun c => c.name = tN)) with
  | false => simp [link_item_to_category, hb]
  | true =>
    rw [Bool.and_eq_true] at hb
    exact absurd ⟨(any_name_iff s.items Item.name iN).mp hb.1,
      (any_name_iff s.categories Category.name tN).mp hb.2⟩ h

lemma link_own_pos (s : GraphState) (iN tN : String)
    (hi : ∃ i ∈ s.items, i.name = iN) (hp : ∃ p ∈ s.persons, p.name = tN) :
    link_item_to_owner s iN tN =
      (true, if (iN, tN) ∈ s.owned_by then s
        else { s with owned_by := s.owned_by ++ [(iN, tN)] }) := by
  have h1 := (any_name_iff s.items Item.name iN).mpr hi
  have h2 := (any_name_iff s.persons Person.name tN).mpr hp
  by_cases hm : (iN, tN) ∈ s.owned_by <;>
    simp [link_item_to_owner, h1, h2, hm]

lemma link_own_neg (s : GraphState) (iN tN : String)
    (h : ¬((∃ i ∈ s.items, i.name = iN) ∧ (∃ p ∈ s.persons, p.name = tN))) :
    link_item_to_owner s iN tN = (false, s) := by
  cases hb : ((s.items.any fun i => i.name = iN) &&
      (s.persons.any fun p => p.name = tN)) with
  | false => simp [link_item_to_owner, hb]
  | true =>
    rw [Bool.and_eq_true] at hb
    exact absurd ⟨(any_name_iff s.items Item.name iN).mp hb.1,
      (any_name_iff s.persons Person.name tN).mp hb.2⟩ h

lemma link_loc_state (s : GraphState) (iN tN : String)
    (hi : ∃ i ∈ s.items, i.name = iN) (hl : ∃ l ∈ s.locations, l.name = tN) :
    (link_item_to_location s iN tN).1 = true ∧
    (link_item_to_location s iN tN).2.items = s.items ∧
    (link_item_to_location s iN tN).2.locations = s.locations ∧
    (iN, tN) ∈ (link_item_to_location s iN tN).2.located_in ∧
    (∀ e ∈ s.located_in, e ∈ (link_item_to_location s iN tN).2.located_in) := by
  rw [link_loc_pos s iN tN hi hl]
  by_cases hm : (iN, tN) ∈ s.located_in <;> simp [hm]
  intro a b h
  exact Or.inl h

lemma link_cat_state (s : GraphState) (iN tN : String)
    (hi : ∃ i ∈ s.items, i.name = iN) (hc : ∃ c ∈ s.categories, c.name = tN) :
    (link_item_to_category s iN tN).1 = true ∧
    (link_item_to_category s iN tN).2.items = s.items ∧
    (link_item_to_category s iN tN).2.categories = s.categories ∧
    (iN, tN) ∈ (link_item_to_category s iN tN).2.belongs_to ∧
    (∀ e ∈ s.belongs_to, e ∈ (link_item_to_category s iN tN).2.belongs_to) := by
  rw [link_cat_pos s iN tN hi hc]
  by_cases hm : (iN, tN) ∈ s.belongs_to <;> simp [hm]
  intro a b h
  exact Or.inl h

lemma link_own_state (s : GraphState) (iN tN : String)
    (hi : ∃ i ∈ s.items, i.name = iN) (hp : ∃ p ∈ s.persons, p.name = tN) :
    (link_item_to_owner s iN tN).1 = true ∧
    (link_item_to_owner s iN tN).2.items = s.items ∧
    (link_item_to_owner s iN tN).2.persons = s.persons ∧
    (iN, tN) ∈ (link_item_to_owner s iN tN).2.owned_by ∧
    (∀ e ∈ s.owned_by, e ∈ (link_item_to_owner s iN tN).2.owned_by) := by
  rw [link_own_pos s iN tN hi hp]
  by_cases hm : (iN, tN) ∈ s.owned_by <;> simp [hm]
  intro a b h
  exact Or.inl h

lemma link_loc_twice (s : GraphState) (iN tN : String)
    (hnd : s.located_in.Nodup)
    (hi : ∃ i ∈ s.items, i.name = iN) (hl : ∃ l ∈ s.locations, l.name = tN) :
    (link_item_to_location s iN tN).1 = true ∧
    (link_item_to_location (link_item_to_location s iN tN).2 iN tN).1 = true ∧
    ((link_item_to_location (link_item_to_location s iN tN).2 iN tN).2.located_in.filter
        (fun e => e = (iN, tN))).length = 1 := by
  have h1 := link_loc_state s iN tN hi hl
  have hi' : ∃ i ∈ (link_item_to_location s iN tN).2.items, i.name = iN := h1.2.1 ▸ hi
  have hl' : ∃ l ∈ (link_item_to_location s iN tN).2.locations, l.name = tN := h1.2.2.1 ▸ hl
  have h2 := link_loc_pos (link_item_to_location s iN tN).2 iN tN hi' hl'
  rw [if_pos h1.2.2.2.1] at h2
  refine ⟨h1.1, by rw [h2], ?_⟩
  rw [h2, link_loc_pos s iN tN hi hl]
  by_cases hm : (iN, tN) ∈ s.located_in
  · rw [if_pos hm]
    exact length_filter_eq_one_of_nodup s.located_in (iN, tN) hnd hm
  · rw [if_neg hm]
    simp [List.filter_append, filter_eq_nil_of_not_mem s.located_in (iN, tN) hm]

lemma link_cat_twice (s : GraphState) (iN tN : String)
    (hnd : s.belongs_to.Nodup)
    (hi : ∃ i ∈ s.items, i.name = iN) (hc : ∃ c ∈ s.categories, c.name = tN) :
    (link_item_to_category s iN tN).1 = true ∧
    (link_item_to_category (link_item_to_category s iN tN).2 iN tN).1 = true ∧
    ((link_item_to_category (link_item_to_category s iN tN).2 iN tN).2.belongs_to.filter
        (fun e => e = (iN, tN))).length = 1 := by
  have h1 := link_cat_state s iN tN hi hc
  have hi' : ∃ i ∈ (link_item_to_category s iN tN).2.items, i.name = iN := h1.2.1 ▸ hi
  have hc' : ∃ c ∈ (link_item_to_category s iN tN).2.categories, c.name = tN := h1.2.2.1 ▸ hc
  have h2 := link_cat_pos (link_item_to_category s iN tN).2 iN tN hi' hc'
  rw [if_pos h1.2.2.2.1] at h2
  refine ⟨h1.1, by rw [h2], ?_⟩
  rw [h2, link_cat_pos s iN tN hi hc]
  by_cases hm : (iN, tN) ∈ s.belongs_to
  · rw [if_pos hm]
    exact length_filter_eq_one_of_nodup s.belongs_to (iN, tN) hnd hm
  · rw [if_neg hm]
    simp [List.filter_append, filter_eq_nil_of_not_mem s.belongs_to (iN, tN) hm]

lemma link_own_twice (s : GraphState) (iN tN : String)
    (hnd : s.owned_by.Nodup)
    (hi : ∃ i ∈ s.items, i.name = iN) (hp : ∃ p ∈ s.persons, p.name = tN) :
    (link_item_to_owner s iN tN).1 = true ∧
    (link_item_to_owner (link_item_to_owner s iN tN).2 iN tN).1 = true ∧
    ((link_item_to_owner (link_item_to_owner s iN tN).2 iN tN).2.owned_by.filter
        (fun e => e = (iN, tN))).length = 1 := by
  have h1 := link_own_state s iN tN hi hp
  have hi' : ∃ i ∈ (link_item_to_owner s iN tN).2.items, i.name = iN := h1.2.1 ▸ hi
  have hp' : ∃ p ∈ (link_item_to_owner s iN tN).2.persons, p.name = tN := h1.2.2.1 ▸ hp
  have h2 := link_own_pos (link_item_to_owner s iN tN).2 iN tN hi' hp'
  rw [if_pos h1.2.2.2.1] at h2
  refine ⟨h1.1, by rw [h2], ?_⟩
  rw [h2, link_own_pos s iN tN hi hp]
  by_cases hm : (iN, tN) ∈ s.owned_by
  · rw [if_pos hm]
    exact length_filter_eq_one_of_nodup s.owned_by (iN, tN) hnd hm
  · rw [if_neg hm]
    simp [List.filter_append, filter_eq_nil_of_not_mem s.owned_by (iN, tN) hm]

/-- A small store for witnesses: one item "TV" and one location, category
and person each named "Tgt"; no edges. -/
def sampleState : GraphState :=
  ⟨[⟨"TV", "", none, none, 1, ""⟩], [⟨"Tgt", "room", ""⟩], [⟨"Tgt", ""⟩],
   [⟨"Tgt"⟩], [], [], []⟩

lemma any_name_false {α : Type} (l : List α) (f : α → String) (n : String)
    (h : ∀ x ∈ l, f x ≠ n) : (l.any fun x => f x = n) = false := by
  cases hb : (l.any fun x => f x = n) with
  | false => rfl
  | true =>
    obtain ⟨x, hx, hfx⟩ := (any_name_iff l f n).mp hb
    exact absurd hfx (h x hx)

lemma mem_of_head?_eq_some {α : Type} {l : List α} {a : α} (h : l.head? = some a) :
    a ∈ l := by
  cases l with
  | nil => simp at h
  | cons b t =>
    simp at h
    exact h ▸ List.mem_cons_self b t

lemma optRows_head? (xs : List String) : (optRows xs).head? = some xs.head? := by
  cases xs <;> simp [optRows]

lemma optRows_ne_nil (xs : List String) : optRows xs ≠ [] := by
  cases xs <;> simp [optRows]

lemma rows_head (ls cs ps : List String) (i : Item) :
    ((optRows ls).flatMap (fun l => (optRows cs).flatMap (fun c =>
      (optRows ps).map (fun p => (i, l, c, p))))).head? =
    some (i, ls.head?, cs.head?, ps.head?) := by
  cases ls <;> cases cs <;> cases ps <;>
    simp [optRows, List.flatMap_cons, List.head?_append]

lemma get_item_details_head (s : GraphState) (n : String) :
    get_item_details s n = ((item_detail_rows s n).head?).map
      (fun r => ⟨r.1, r.2.1, r.2.2.1, r.2.2.2⟩) := by
  cases h : item_detail_rows s n <;> simp [get_item_details, h]

lemma get_item_details_eq (s : GraphState) (n : String) :
    get_item_details s n = (s.items.find? (fun i => i.name = n)).map
      (fun i => ⟨i, (locatedNames s n).head?, (categoryNames s n).head?,
        (ownerNames s n).head?⟩) := by
  rw [get_item_details_head]
  cases hf : s.items.find? (fun i => i.name = n) with
  | none => simp [item_detail_rows, hf]
  | some i =>
    simp only [item_detail_rows, hf]
    rw [rows_head]
    rfl

lemma edge_names_spec (edges : List (String × String)) (ok : String → Bool) (n : String)
    (hok : ∀ e ∈ edges, e.1 = n → ok e.2 = true) :
    ((edges.filter (fun e => e.1 = n && ok e.2)).map (·.2) = [] ↔
        ¬∃ e ∈ edges, e.1 = n) ∧
    (∀ x ∈ (edges.filter (fun e => e.1 = n && ok e.2)).map (·.2), (n, x) ∈ edges) := by
  constructor
  · constructor
    · intro hnil ⟨e, he, he1⟩
      have : e ∈ edges.filter (fun e => e.1 = n && ok e.2) := by
        rw [List.mem_filter]
        exact ⟨he, by simp [he1, hok e he he1]⟩
      rw [List.map_eq_nil_iff] at hnil
      rw [hnil] at this
      exact absurd this (List.not_mem_nil e)
    · intro hno
      rw [List.map_eq_nil_iff, List.filter_eq_nil_iff]
      intro e he
      simp only [Bool.and_eq_true, decide_eq_true_eq]
      rintro ⟨he1, -⟩
      exact hno ⟨e, he, he1⟩
  · intro x hx
    rw [List.mem_map] at hx
    obtain ⟨e, he, hx2⟩ := hx
    rw [List.mem_filter] at he
    obtain ⟨he, hcond⟩ := he
    simp only [Bool.and_eq_true, decide_eq_true_eq] at hcond
    have : e = (n, x) := by
      cases e
      simp only [Prod.mk.injEq]
      exact ⟨hcond.1, hx2⟩
    exact this ▸ he

lemma length_flatMap_const {α β : Type} (l : List α) (f : α → List β) (k : Nat)
    (h : ∀ x, (f x).length = k) : (l.flatMap f).length = l.length * k := by
  induction l with
  | nil => simp
  | cons a l ih =>
    simp only [List.flatMap_cons, List.length_append, ih, List.length_cons, h]
    ring

lemma item_detail_rows_length (s : GraphState) (n : String) (i : Item)
    (hf : s.items.find? (fun x => x.name = n) = some i) :
    (item_detail_rows s n).length =
      (optRows (locatedNames s n)).length *
        ((optRows (categoryNames s n)).length * (optRows (ownerNames s n)).length) := by
  simp only [item_detail_rows, hf]
  apply length_flatMap_const
  intro l
  apply length_flatMap_const
  intro c
  simp

lemma two_le_mul_fst (a b c : Nat) (h : 2 ≤ a) (hb : 0 < b) (hc : 0 < c) :
    2 ≤ a * (b * c) :=
  calc 2 ≤ a := h
    _ = a * (1 * 1) := by ring
    _ ≤ a * (b * c) := Nat.mul_le_mul_left a (Nat.mul_le_mul hb hc)

lemma two_le_mul_snd (a b c : Nat) (h : 2 ≤ b) (ha : 0 < a) (hc : 0 < c) :
    2 ≤ a * (b * c) :=
  calc 2 ≤ b := h
    _ = 1 * (b * 1) := by ring
    _ ≤ a * (b * c) := Nat.mul_le_mul ha (Nat.mul_le_mul (Nat.le_refl b) hc)

lemma two_le_mul_trd (a b c : Nat) (h : 2 ≤ c) (ha : 0 < a) (hb : 0 < b) :
    2 ≤ a * (b * c) :=
  calc 2 ≤ c := h
    _ = 1 * (1 * c) := by ring
    _ ≤ a * (b * c) := Nat.mul_le_mul ha (Nat.mul_le_mul hb (Nat.le_refl c))

/-! ## Claims -/

/-- C1: for every node kind K in {Item, Location, Category, Person} and every
name `n`, if a node of kind K named `n` already exists, the creation
operation for K with name `n` fails with a constraint violation, stores
nothing (the state is unchanged), and afterwards exactly one stored node of
kind K has name `n`. -/
theorem create_duplicate_rejected (s : GraphState) (n : String) (hWF : WF s) :
    ((∃ i ∈ s.items, i.name = n) → ∀ d pd v q no,
        create_item s n d pd v q no = (.error .constraintViolation, s) ∧
        ((create_item s n d pd v q no).2.items.filter (fun i => i.name = n)).length = 1)
    ∧ ((∃ l ∈ s.locations, l.name = n) → ∀ t d,
        create_location s n t d = (.error .constraintViolation, s) ∧
        ((create_location s n t d).2.locations.filter (fun l => l.name = n)).length = 1)
    ∧ ((∃ c ∈ s.categories, c.name = n) → ∀ d,
        create_category s n d = (.error .constraintViolation, s) ∧
        ((create_category s n d).2.categories.filter (fun c => c.name = n)).length = 1)
    ∧ ((∃ p ∈ s.persons, p.name = n) →
        create_person s n = (.error .constraintViolation, s) ∧
        ((create_person s n).2.persons.filter (fun p => p.name = n)).length = 1) := by
  obtain ⟨hnd_i, hnd_l, hnd_c, hnd_p, -⟩ := hWF
  refine ⟨?_, ?_, ?_, ?_⟩
  · rintro ⟨x, hx, hn⟩ d pd v q no
    have hany : (s.items.any fun i => i.name = n) = true :=
      (any_name_iff s.items Item.name n).mpr ⟨x, hx, hn⟩
    have heq : create_item s n d pd v q no = (.error .constraintViolation, s) := by
      simp [create_item, hany]
    refine ⟨heq, ?_⟩
    rw [heq]
    exact length_filter_eq_one_of_nodup_map s.items Item.name n hnd_i ⟨x, hx, hn⟩
  · rintro ⟨x, hx, hn⟩ t d
    have hany : (s.locations.any fun l => l.name = n) = true :=
      (any_name_iff s.locations Location.name n).mpr ⟨x, hx, hn⟩
    have heq : create_location s n t d = (.error .constraintViolation, s) := by
      simp [create_location, hany]
    refine ⟨heq, ?_⟩
    rw [heq]
    exact length_filter_eq_one_of_nodup_map s.locations Location.name n hnd_l ⟨x, hx, hn⟩
  · rintro ⟨x, hx, hn⟩ d
    have hany : (s.categories.any fun c => c.name = n) = true :=
      (any_name_iff s.categories Category.name n).mpr ⟨x, hx, hn⟩
    have heq : create_category s n d = (.error .constraintViolation, s) := by
      simp [create_category, hany]
    refine ⟨heq, ?_⟩
    rw [heq]
    exact length_filter_eq_one_of_nodup_map s.categories Category.name n hnd_c ⟨x, hx, hn⟩
  · rintro ⟨x, hx, hn⟩
    have hany : (s.persons.any fun p => p.name = n) = true :=
      (any_name_iff s.persons Person.name n).mpr ⟨x, hx, hn⟩
    have heq : create_person s n = (.error .constraintViolation, s) := by
      simp [create_person, hany]
    refine ⟨heq, ?_⟩
    rw [heq]
    exact length_filter_eq_one_of_nodup_map s.persons Person.name n hnd_p ⟨x, hx, hn⟩

/-- C1 witness: a store holding one node of each kind named "Dup" rejects a
second creation of each and keeps the state unchanged. -/
theorem create_duplicate_rejected_witness :
    create_item ⟨[⟨"Dup", "", none, none, 1, ""⟩], [⟨"Dup", "room", ""⟩],
        [⟨"Dup", ""⟩], [⟨"Dup"⟩], [], [], []⟩ "Dup" =
      (.error .constraintViolation,
        ⟨[⟨"Dup", "", none, none, 1, ""⟩], [⟨"Dup", "room", ""⟩],
         [⟨"Dup", ""⟩], [⟨"Dup"⟩], [], [], []⟩) ∧
    create_person ⟨[⟨"Dup", "", none, none, 1, ""⟩], [⟨"Dup", "room", ""⟩],
        [⟨"Dup", ""⟩], [⟨"Dup"⟩], [], [], []⟩ "Dup" =
      (.error .constraintViolation,
        ⟨[⟨"Dup", "", none, none, 1, ""⟩], [⟨"Dup", "room", ""⟩],
         [⟨"Dup", ""⟩], [⟨"Dup"⟩], [], [], []⟩) := by
  have h := create_duplicate_rejected
    ⟨[⟨"Dup", "", none, none, 1, ""⟩], [⟨"Dup", "room", ""⟩],
     [⟨"Dup", ""⟩], [⟨"Dup"⟩], [], [], []⟩ "Dup" (by decide)
  exact ⟨(h.1 (by decide) "" none none 1 "").1, (h.2.2.2 (by decide)).1⟩

/-- C2: linking is idempotent.  For every pair of existing endpoint nodes,
invoking `link_item_to_location` (likewise `link_item_to_category`,
`link_item_to_owner`) twice with identical arguments leaves exactly one edge
of that relationship kind between the two nodes, and both invocations
return true. -/
theorem link_idempotent (s : GraphState) (iN tN : String) (hWF : WF s) :
    ((∃ i ∈ s.items, i.name = iN) → (∃ l ∈ s.locations, l.name = tN) →
      (link_item_to_location s iN tN).1 = true ∧
      (link_item_to_location (link_item_to_location s iN tN).2 iN tN).1 = true ∧
      ((link_item_to_location (link_item_to_location s iN tN).2 iN tN).2.located_in.filter
          (fun e => e = (iN, tN))).length = 1)
    ∧ ((∃ i ∈ s.items, i.name = iN) → (∃ c ∈ s.categories, c.name = tN) →
      (link_item_to_category s iN tN).1 = true ∧
      (link_item_to_category (link_item_to_category s iN tN).2 iN tN).1 = true ∧
      ((link_item_to_category (link_item_to_category s iN tN).2 iN tN).2.belongs_to.filter
          (fun e => e = (iN, tN))).length = 1)
    ∧ ((∃ i ∈ s.items, i.name = iN) → (∃ p ∈ s.persons, p.name = tN) →
      (link_item_to_owner s iN tN).1 = true ∧
      (link_item_to_owner (link_item_to_owner s iN tN).2 iN tN).1 = true ∧
      ((link_item_to_owner (link_item_to_owner s iN tN).2 iN tN).2.owned_by.filter
          (fun e => e = (iN, tN))).length = 1) := by
  obtain ⟨-, -, -, -, hnd_li, hnd_bt, hnd_ob, -⟩ := hWF
  exact ⟨fun hi hl => link_loc_twice s iN tN hnd_li hi hl,
    fun hi hc => link_cat_twice s iN tN hnd_bt hi hc,
    fun hi hp => link_own_twice s iN tN hnd_ob hi hp⟩

/-- C2 witness: linking the sample item to the sample location twice leaves
one edge and reports success twice. -/
theorem link_idempotent_witness :
    (link_item_to_location sampleState "TV" "Tgt").1 = true ∧
    (link_item_to_location (link_item_to_location sampleState "TV" "Tgt").2 "TV" "Tgt").1 = true ∧
    ((link_item_to_location (link_item_to_location sampleState "TV" "Tgt").2 "TV"
        "Tgt").2.located_in.filter (fun e => e = ("TV", "Tgt"))).length = 1 := by
  have h := link_idempotent sampleState "TV" "Tgt" (by decide)
  exact h.1 (by decide) (by decide)

/-- C3: for every linking operation, the call returns false (no exception)
and leaves the store unchanged when either named endpoint is missing, and
it returns true iff both endpoints exist, in which case the edge is present
afterwards. -/
theorem link_endpoint_check (s : GraphState) (iN tN : String) :
    (((link_item_to_location s iN tN).1 = true ↔
        (∃ i ∈ s.items, i.name = iN) ∧ (∃ l ∈ s.locations, l.name = tN))
      ∧ ((link_item_to_location s iN tN).1 = false →
          link_item_to_location s iN tN = (false, s))
      ∧ ((link_item_to_location s iN tN).1 = true →
          (iN, tN) ∈ (link_item_to_location s iN tN).2.located_in))
    ∧ (((link_item_to_category s iN tN).1 = true ↔
        (∃ i ∈ s.items, i.name = iN) ∧ (∃ c ∈ s.categories, c.name = tN))
      ∧ ((link_item_to_category s iN tN).1 = false →
          link_item_to_category s iN tN = (false, s))
      ∧ ((link_item_to_category s iN tN).1 = true →
          (iN, tN) ∈ (link_item_to_category s iN tN).2.belongs_to))
    ∧ (((link_item_to_owner s iN tN).1 = true ↔
        (∃ i ∈ s.items, i.name = iN) ∧ (∃ p ∈ s.persons, p.name = tN))
      ∧ ((link_item_to_owner s iN tN).1 = false →
          link_item_to_owner s iN tN = (false, s))
      ∧ ((link_item_to_owner s iN tN).1 = true →
          (iN, tN) ∈ (link_item_to_owner s iN tN).2.owned_by)) := by
  refine ⟨?_, ?_, ?_⟩
  · by_cases hA : (∃ i ∈ s.items, i.name = iN) ∧ (∃ l ∈ s.locations, l.name = tN)
    · rw [link_loc_pos s iN tN hA.1 hA.2]
      refine ⟨by simp [hA], by simp, ?_⟩
      intro _
      by_cases hm : (iN, tN) ∈ s.located_in <;> simp [hm]
    · rw [link_loc_neg s iN tN hA]
      exact ⟨by simp [hA], fun _ => rfl, by simp⟩
  · by_cases hA : (∃ i ∈ s.items, i.name = iN) ∧ (∃ c ∈ s.categories, c.name = tN)
    · rw [link_cat_pos s iN tN hA.1 hA.2]
      refine ⟨by simp [hA], by simp, ?_⟩
      intro _
      by_cases hm : (iN, tN) ∈ s.belongs_to <;> simp [hm]
    · rw [link_cat_neg s iN tN hA]
      exact ⟨by simp [hA], fun _ => rfl, by simp⟩
  · by_cases hA : (∃ i ∈ s.items, i.name = iN) ∧ (∃ p ∈ s.persons, p.name = tN)
    · rw [link_own_pos s iN tN hA.1 hA.2]
      refine ⟨by simp [hA], by simp, ?_⟩
      intro _
      by_cases hm : (iN, tN) ∈ s.owned_by <;> simp [hm]
    · rw [link_own_neg s iN tN hA]
      exact ⟨by simp [hA], fun _ => rfl, by simp⟩

/-- C7: linking an item to a second, different location leaves the existing
`LOCATED_IN` edge in place: after linking to A and then to B (all nodes
existing, A ≠ B), edges to both A and B are present, and every pre-existing
edge survives — the operation never removes or replaces an edge. -/
theorem link_second_location_keeps_first (s : GraphState) (iN A B : String)
    (hAB : A ≠ B)
    (hi : ∃ i ∈ s.items, i.name = iN)
    (hA : ∃ l ∈ s.locations, l.name = A)
    (hB : ∃ l ∈ s.locations, l.name = B) :
    (iN, A) ∈ (link_item_to_location (link_item_to_location s iN A).2 iN B).2.located_in ∧
    (iN, B) ∈ (link_item_to_location (link_item_to_location s iN A).2 iN B).2.located_in ∧
    ∀ e ∈ s.located_in,
      e ∈ (link_item_to_location (link_item_to_location s iN A).2 iN B).2.located_in := by
  have h1 := link_loc_state s iN A hi hA
  have hi' : ∃ i ∈ (link_item_to_location s iN A).2.items, i.name = iN := h1.2.1 ▸ hi
  have hB' : ∃ l ∈ (link_item_to_location s iN A).2.locations, l.name = B := h1.2.2.1 ▸ hB
  have h2 := link_loc_state (link_item_to_location s iN A).2 iN B hi' hB'
  exact ⟨h2.2.2.2.2 _ h1.2.2.2.1, h2.2.2.2.1,
    fun e he => h2.2.2.2.2 e (h1.2.2.2.2 e he)⟩

/-- C7 witness: with locations "A" and "B" present, linking "TV" to "A" and
then to "B" leaves both edges. -/
theorem link_second_location_keeps_first_witness :
    ("TV", "A") ∈ (link_item_to_location
        (link_item_to_location
          ⟨[⟨"TV", "", none, none, 1, ""⟩], [⟨"A", "room", ""⟩, ⟨"B", "room", ""⟩],
           [], [], [], [], []⟩ "TV" "A").2 "TV" "B").2.located_in ∧
    ("TV", "B") ∈ (link_item_to_location
        (link_item_to_location
          ⟨[⟨"TV", "", none, none, 1, ""⟩], [⟨"A", "room", ""⟩, ⟨"B", "room", ""⟩],
           [], [], [], [], []⟩ "TV" "A").2 "TV" "B").2.located_in := by
  have h := link_second_location_keeps_first
    ⟨[⟨"TV", "", none, none, 1, ""⟩], [⟨"A", "room", ""⟩, ⟨"B", "room", ""⟩],
     [], [], [], [], []⟩ "TV" "A" "B"
    (by decide) (by decide) (by decide) (by decide)
  exact ⟨h.1, h.2.1⟩

/-- C4: creation→link→query round trip.  Starting from a store with no node
named "Samsung TV" or "Living Room", after creating the item (value 799.99,
quantity 1), creating the location, and linking them,
`find_items_in_location "Living Room"` returns exactly one item, named
"Samsung TV" with value 799.99. -/
theorem round_trip_find_items (s : GraphState) (hWF : WF s)
    (hit : ∀ i ∈ s.items, i.name ≠ "Samsung TV" ∧ i.name ≠ "Living Room")
    (hlo : ∀ l ∈ s.locations, l.name ≠ "Samsung TV" ∧ l.name ≠ "Living Room")
    (_hca : ∀ c ∈ s.categories, c.name ≠ "Samsung TV" ∧ c.name ≠ "Living Room")
    (_hpe : ∀ p ∈ s.persons, p.name ≠ "Samsung TV" ∧ p.name ≠ "Living Room") :
    find_items_in_location
      (link_item_to_location
        (create_location (create_item s "Samsung TV" "" none (some (799.99 : Rat)) 1 "").2
          "Living Room" "room" "").2
        "Samsung TV" "Living Room").2
      "Living Room" =
      [⟨"Samsung TV", "", none, some (799.99 : Rat), 1, ""⟩] := by
  obtain ⟨-, -, -, -, -, -, -, hloc, -, -⟩ := hWF
  have ha1 : (s.items.any fun i => i.name = "Samsung TV") = false :=
    any_name_false s.items Item.name "Samsung TV" (fun x hx => (hit x hx).1)
  have e1 : (create_item s "Samsung TV" "" none (some (799.99 : Rat)) 1 "").2 =
      { s with items := s.items ++ [⟨"Samsung TV", "", none, some (799.99 : Rat), 1, ""⟩] } := by
    simp [create_item, ha1]
  rw [e1]
  have ha2 : (s.locations.any fun l => l.name = "Living Room") = false :=
    any_name_false s.locations Location.name "Living Room" (fun x hx => (hlo x hx).2)
  have e2 : (create_location
      { s with items := s.items ++ [⟨"Samsung TV", "", none, some (799.99 : Rat), 1, ""⟩] }
      "Living Room" "room" "").2 =
      { s with items := s.items ++ [⟨"Samsung TV", "", none, some (799.99 : Rat), 1, ""⟩],
               locations := s.locations ++ [⟨"Living Room", "room", ""⟩] } := by
    simp [create_location, ha2]
  rw [e2]
  have hnoedge : ("Samsung TV", "Living Room") ∉ s.located_in := by
    intro hmem
    obtain ⟨-, l, hl, hname⟩ := hloc _ hmem
    exact (hlo l hl).2 hname
  have e3 : (link_item_to_location
      { s with items := s.items ++ [⟨"Samsung TV", "", none, some (799.99 : Rat), 1, ""⟩],
               locations := s.locations ++ [⟨"Living Room", "room", ""⟩] }
      "Samsung TV" "Living Room").2 =
      { s with items := s.items ++ [⟨"Samsung TV", "", none, some (799.99 : Rat), 1, ""⟩],
               locations := s.locations ++ [⟨"Living Room", "room", ""⟩],
               located_in := s.located_in ++ [("Samsung TV", "Living Room")] } := by
    rw [link_loc_pos _ _ _
      ⟨⟨"Samsung TV", "", none, some (799.99 : Rat), 1, ""⟩, by simp, rfl⟩
      ⟨⟨"Living Room", "room", ""⟩, by simp, rfl⟩]
    rw [if_neg hnoedge]
  rw [e3]
  have ha3 : ((s.locations ++ [(⟨"Living Room", "room", ""⟩ : Location)]).any
      fun l => l.name = "Living Room") = true := by
    rw [any_name_iff]
    exact ⟨⟨"Living Room", "room", ""⟩, by simp, rfl⟩
  rw [find_items_in_location]
  rw [if_pos ha3]
  rw [List.filter_append]
  have hleft : (s.items.filter fun i =>
      (i.name, "Living Room") ∈ s.located_in ++ [("Samsung TV", "Living Room")]) = [] := by
    rw [List.filter_eq_nil_iff]
    intro i hi
    simp only [decide_eq_true_eq, List.mem_append, List.mem_singleton]
    rintro (hmem | heq)
    · obtain ⟨-, l, hl, hname⟩ := hloc _ hmem
      exact (hlo l hl).2 hname
    · exact (hit i hi).1 (by simpa using congrArg Prod.fst heq)
  rw [hleft]
  simp

/-- C4 witness: the round trip on the empty store. -/
theorem round_trip_find_items_witness :
    find_items_in_location
      (link_item_to_location
        (create_location
          (create_item GraphState.empty "Samsung TV" "" none (some (799.99 : Rat)) 1 "").2
          "Living Room" "room" "").2
        "Samsung TV" "Living Room").2
      "Living Room" =
      [⟨"Samsung TV", "", none, some (799.99 : Rat), 1, ""⟩] :=
  round_trip_find_items GraphState.empty (by decide) (by decide) (by decide)
    (by decide) (by decide)

/-- C5: `get_item_details` returns absent (not an error) when no Item of
that name exists; when the Item exists, each of the location, category and
owner fields is filled from the corresponding edge independently and is
absent exactly when no such edge exists. -/
theorem get_item_details_optional_fields (s : GraphState) (n : String) (hWF : WF s) :
    (get_item_details s n = none ↔ ∀ i ∈ s.items, i.name ≠ n)
    ∧ (∀ d, get_item_details s n = some d →
        (d.item ∈ s.items ∧ d.item.name = n)
        ∧ (d.location = none ↔ ¬∃ e ∈ s.located_in, e.1 = n)
        ∧ (∀ x, d.location = some x → (n, x) ∈ s.located_in)
        ∧ (d.category = none ↔ ¬∃ e ∈ s.belongs_to, e.1 = n)
        ∧ (∀ x, d.category = some x → (n, x) ∈ s.belongs_to)
        ∧ (d.owner = none ↔ ¬∃ e ∈ s.owned_by, e.1 = n)
        ∧ (∀ x, d.owner = some x → (n, x) ∈ s.owned_by)) := by
  obtain ⟨-, -, -, -, -, -, -, hloc, hbel, hown⟩ := hWF
  have hspecL := edge_names_spec s.located_in
    (fun t => s.locations.any (fun l => l.name = t)) n
    (fun e he _ => (any_name_iff s.locations Location.name e.2).mpr (hloc e he).2)
  have hspecC := edge_names_spec s.belongs_to
    (fun t => s.categories.any (fun c => c.name = t)) n
    (fun e he _ => (any_name_iff s.categories Category.name e.2).mpr (hbel e he).2)
  have hspecO := edge_names_spec s.owned_by
    (fun t => s.persons.any (fun p => p.name = t)) n
    (fun e he _ => (any_name_iff s.persons Person.name e.2).mpr (hown e he).2)
  constructor
  · rw [get_item_details_eq]
    simp [List.find?_eq_none]
  · intro d hd
    rw [get_item_details_eq] at hd
    cases hf : s.items.find? (fun i => i.name = n) with
    | none => rw [hf] at hd; simp at hd
    | some i =>
      rw [hf] at hd
      have hd' : (⟨i, (locatedNames s n).head?, (categoryNames s n).head?,
          (ownerNames s n).head?⟩ : ItemDetails) = d := Option.some.inj hd
      subst hd'
      refine ⟨⟨List.mem_of_find?_eq_some hf, by simpa using List.find?_some hf⟩,
        ?_, ?_, ?_, ?_, ?_, ?_⟩
      · rw [List.head?_eq_none_iff]
        exact hspecL.1
      · intro x hx
        exact hspecL.2 x (mem_of_head?_eq_some hx)
      · rw [List.head?_eq_none_iff]
        exact hspecC.1
      · intro x hx
        exact hspecC.2 x (mem_of_head?_eq_some hx)
      · rw [List.head?_eq_none_iff]
        exact hspecO.1
      · intro x hx
        exact hspecO.2 x (mem_of_head?_eq_some hx)

/-- C5 witness: "NoSuchItem" yields absent on the empty store, and an item
linked only to a location yields the location populated and the category
and owner absent. -/
theorem get_item_details_optional_fields_witness :
    get_item_details GraphState.empty "NoSuchItem" = none ∧
    get_item_details ⟨[⟨"TV", "", none, none, 1, ""⟩], [⟨"L", "room", ""⟩], [], [],
        [("TV", "L")], [], []⟩ "TV" =
      some ⟨⟨"TV", "", none, none, 1, ""⟩, some "L", none, none⟩ :=
  ⟨(get_item_details_optional_fields GraphState.empty "NoSuchItem"
      (by decide)).1.mpr (by decide), by rfl⟩

/-- C10: `get_item_details` builds its result from only the first row of the
store result.  When the item has more than one `LOCATED_IN` (or
`BELONGS_TO`, or `OWNED_BY`) edge, the query produces at least two rows,
the returned details carry exactly one location (category, owner) name —
the one in the first row — and the remaining edges are silently omitted. -/
theorem get_item_details_first_row_only (s : GraphState) (n : String) :
    ∀ i, s.items.find? (fun x => x.name = n) = some i →
      ((∀ a b rest, locatedNames s n = a :: b :: rest →
        ∃ d, get_item_details s n = some d ∧ d.location = some a ∧
          2 ≤ (item_detail_rows s n).length)
      ∧ (∀ a b rest, categoryNames s n = a :: b :: rest →
        ∃ d, get_item_details s n = some d ∧ d.category = some a ∧
          2 ≤ (item_detail_rows s n).length)
      ∧ (∀ a b rest, ownerNames s n = a :: b :: rest →
        ∃ d, get_item_details s n = some d ∧ d.owner = some a ∧
          2 ≤ (item_detail_rows s n).length)) := by
  intro i hf
  have hget : get_item_details s n =
      some ⟨i, (locatedNames s n).head?, (categoryNames s n).head?,
        (ownerNames s n).head?⟩ := by
    rw [get_item_details_eq, hf]
    rfl
  have hlen := item_detail_rows_length s n i hf
  have hposL : 0 < (optRows (locatedNames s n)).length :=
    List.length_pos.mpr (optRows_ne_nil _)
  have hposC : 0 < (optRows (categoryNames s n)).length :=
    List.length_pos.mpr (optRows_ne_nil _)
  have hposO : 0 < (optRows (ownerNames s n)).length :=
    List.length_pos.mpr (optRows_ne_nil _)
  refine ⟨?_, ?_, ?_⟩
  · intro a b rest hab
    refine ⟨_, hget, by rw [hab]; rfl, ?_⟩
    rw [hlen, hab]
    exact two_le_mul_fst _ _ _ (by simp [optRows]) hposC hposO
  · intro a b rest hab
    refine ⟨_, hget, by rw [hab]; rfl, ?_⟩
    rw [hlen, hab]
    exact two_le_mul_snd _ _ _ (by simp [optRows]) hposL hposO
  · intro a b rest hab
    refine ⟨_, hget, by rw [hab]; rfl, ?_⟩
    rw [hlen, hab]
    exact two_le_mul_trd _ _ _ (by simp [optRows]) hposL hposC

/-- C10 witness: an item with `LOCATED_IN` edges to both "A" and "B"
yields details carrying only "A", while the query produced at least two
rows. -/
theorem get_item_details_first_row_only_witness :
    ∃ d, get_item_details
        ⟨[⟨"TV", "", none, none, 1, ""⟩],
         [⟨"A", "room", ""⟩, ⟨"B", "room", ""⟩], [], [],
         [("TV", "A"), ("TV", "B")], [], []⟩ "TV" = some d ∧
      d.location = some "A" ∧
      2 ≤ (item_detail_rows
        ⟨[⟨"TV", "", none, none, 1, ""⟩],
         [⟨"A", "room", ""⟩, ⟨"B", "room", ""⟩], [], [],
         [("TV", "A"), ("TV", "B")], [], []⟩ "TV").length :=
  (get_item_details_first_row_only
    ⟨[⟨"TV", "", none, none, 1, ""⟩],
     [⟨"A", "room", ""⟩, ⟨"B", "room", ""⟩], [], [],
     [("TV", "A"), ("TV", "B")], [], []⟩ "TV"
    ⟨"TV", "", none, none, 1, ""⟩ (by rfl)).1 "A" "B" [] (by rfl)

/-- Whatever the store replies to the individual constraint statements,
`initialize_constraints` returns normally: the per-statement
`except Exception` handler converts every error into a printed note. -/
lemma initialize_constraints_ok (run : String → Except Neo4jError Unit) :
    ∃ notes, initialize_constraints run = .ok notes := by
  have key : ∀ (l : List String) (acc : List String),
      ∃ ns, (l.foldlM (fun notes c => match run c with
        | .ok _ => pure notes
        | .error e => pure (notes ++ ["Note: " ++ e.text])) acc :
          Except Neo4jError (List String)) = .ok ns := by
    intro l
    induction l with
    | nil => intro acc; exact ⟨acc, rfl⟩
    | cons c t ih =>
      intro acc
      cases hr : run c with
      | ok u =>
        obtain ⟨ns, hns⟩ := ih acc
        refine ⟨ns, ?_⟩
        rw [List.foldlM_cons, hr]
        simpa using hns
      | error e =>
        obtain ⟨ns, hns⟩ := ih (acc ++ ["Note: " ++ e.text])
        refine ⟨ns, ?_⟩
        rw [List.foldlM_cons, hr]
        simpa using hns
  exact key constraint_statements []

/-- C6 (refuted by the code): the claim says only "constraint already
exists" is non-fatal and every other failure during constraint setup (auth
failure, unreachable store) propagates to the caller.  The embedded
`initialize_constraints` instead returns normally for every store
behaviour — in particular an authentication failure or an unreachable
store raised on each statement is converted into four printed notes and
swallowed. -/
theorem constraint_setup_swallows_failures :
    (∀ run : String → Except Neo4jError Unit, ∃ notes,
      initialize_constraints run = .ok notes) ∧
    initialize_constraints (fun _ => .error .authError) =
      .ok (List.replicate 4 ("Note: " ++ Neo4jError.text .authError)) ∧
    initialize_constraints (fun _ => .error .serviceUnavailable) =
      .ok (List.replicate 4 ("Note: " ++ Neo4jError.text .serviceUnavailable)) :=
  ⟨initialize_constraints_ok, by rfl, by rfl⟩

/-- C8: `list_all_locations` and `list_all_categories` return all nodes of
their kind ordered by name ascending; in particular, locations "Kitchen",
"Living Room", "Garage" created in that (scrambled) order come back as
"Garage", "Kitchen", "Living Room". -/
theorem listings_sorted_by_name (s : GraphState) :
    (list_all_locations s).Perm s.locations ∧
    List.Sorted (fun a b : Location => a.name ≤ b.name) (list_all_locations s) ∧
    (list_all_categories s).Perm s.categories ∧
    List.Sorted (fun a b : Category => a.name ≤ b.name) (list_all_categories s) ∧
    ((list_all_locations
      (create_location
        (create_location (create_location GraphState.empty "Kitchen" "room" "").2
          "Living Room" "room" "").2
        "Garage" "room" "").2).map Location.name = ["Garage", "Kitchen", "Living Room"]) := by
  haveI hTotL : IsTotal Location (fun a b => a.name ≤ b.name) :=
    ⟨fun a b => le_total a.name b.name⟩
  haveI hTrL : IsTrans Location (fun a b => a.name ≤ b.name) :=
    ⟨fun _ _ _ hab hbc => le_trans hab hbc⟩
  haveI hTotC : IsTotal Category (fun a b => a.name ≤ b.name) :=
    ⟨fun a b => le_total a.name b.name⟩
  haveI hTrC : IsTrans Category (fun a b => a.name ≤ b.name) :=
    ⟨fun _ _ _ hab hbc => le_trans hab hbc⟩
  refine ⟨List.perm_insertionSort _ _, List.sorted_insertionSort _ _,
    List.perm_insertionSort _ _, List.sorted_insertionSort _ _, ?_⟩
  have hlocs : (create_location
      (create_location (create_location GraphState.empty "Kitchen" "room" "").2
        "Living Room" "room" "").2
      "Garage" "room" "").2.locations =
      [⟨"Kitchen", "room", ""⟩, ⟨"Living Room", "room", ""⟩, ⟨"Garage", "room", ""⟩] := by
    rfl
  have hperm : ((list_all_locations
      (create_location
        (create_location (create_location GraphState.empty "Kitchen" "room" "").2
          "Living Room" "room" "").2
        "Garage" "room" "").2).map Location.name).Perm
      ["Garage", "Kitchen", "Living Room"] := by
    have h1 := (List.perm_insertionSort (fun a b : Location => a.name ≤ b.name)
      (create_location
        (create_location (create_location GraphState.empty "Kitchen" "room" "").2
          "Living Room" "room" "").2
        "Garage" "room" "").2.locations).map Location.name
    rw [hlocs] at h1
    exact h1.trans (by decide)
  have hsor : ((list_all_locations
      (create_location
        (create_location (create_location GraphState.empty "Kitchen" "room" "").2
          "Living Room" "room" "").2
        "Garage" "room" "").2).map Location.name).Sorted (· ≤ ·) := by
    apply List.Pairwise.map Location.name
    · exact fun a b hab => hab
    · exact List.sorted_insertionSort _ _
  have htgt : (["Garage", "Kitchen", "Living Room"] : List String).Sorted (· ≤ ·) := by
    simp [List.sorted_cons]
    decide
  exact List.eq_of_perm_of_sorted hperm hsor htgt

/-- C9: each exposed creation action requires its `name` argument before any
store call: when the arguments carry no "name" key, keyword binding fails,
the reply is the generic error text, and the store state is untouched. -/
theorem create_tools_reject_missing_name (s : GraphState)
    (args : List (String × PyVal)) (h : ∀ a ∈ args, a.1 ≠ "name") :
    call_tool_create_item s args = (.errorText "Error: TypeError", s) ∧
    call_tool_create_location s args = (.errorText "Error: TypeError", s) ∧
    call_tool_create_category s args = (.errorText "Error: TypeError", s) := by
  have hget : getArg args "name" = none := by
    rw [getArg]
    cases hf : args.find? (fun a => a.1 = "name") with
    | none => rfl
    | some a =>
      have h1 := List.find?_some hf
      have ha := List.mem_of_find?_eq_some hf
      exact absurd (by simpa using h1) (h a ha)
  have hbind : ∀ opt : List String, kwargsBind args ["name"] opt = false := by
    intro opt
    simp [kwargsBind, hget]
  simp [call_tool_create_item, call_tool_create_location, call_tool_create_category,
    hbind]

/-- C9 witness: a tool call whose arguments hold only "description" is
rejected by all three creation actions and leaves the empty store empty. -/
theorem create_tools_reject_missing_name_witness :
    call_tool_create_item GraphState.empty [("description", PyVal.str "x")] =
      (.errorText "Error: TypeError", GraphState.empty) ∧
    call_tool_create_location GraphState.empty [("description", PyVal.str "x")] =
      (.errorText "Error: TypeError", GraphState.empty) ∧
    call_tool_create_category GraphState.empty [("description", PyVal.str "x")] =
      (.errorText "Error: TypeError", GraphState.empty) :=
  create_tools_reject_missing_name GraphState.empty
    [("description", PyVal.str "x")] (by decide)

end HomeAlog
